import Mathlib

/-!
# Verification of `createPullRequest.ts`

A shallow embedding of the repository's single source module
`src/createPullRequest.ts` (an AI-assisted GitHub workflow tool), together
with theorems settling the specification claims about it.

Modelling conventions:
* JavaScript strings handled character-wise are embedded as `List Char`;
  strings only compared or concatenated wholesale stay `String`.
* `process.env.X` values are `Option String` (`none` = unset); JavaScript
  truthiness of such a value (`if (x)` / `if (!x)`) is `truthyStr`.
* Each `execSync` shell-out either succeeds or throws; outcomes of the
  external tool are supplied by an oracle, and the sequence of commands a
  function issues before returning is recorded as a trace.
* A thrown JavaScript `Error` is an `Except.error` value.
-/

/-- The separator `"\n\n"` used by `responseText.split("\n\n")` and
`bodyParts.join("\n\n")` in `generatePRMessage`. -/
def NL2 : List Char := ['\n', '\n']

/-- Whitespace for JavaScript `String.prototype.trim` (ECMAScript WhiteSpace
and LineTerminator code points). -/
def jsWhitespace (c : Char) : Bool :=
  c = ' ' || c = '\t' || c = '\n' || c = '\r' ||
  c.val = 0x0b || c.val = 0x0c ||
  c.val = 0xa0 || c.val = 0x1680 ||
  (0x2000 ≤ c.val && c.val ≤ 0x200a) ||
  c.val = 0x2028 || c.val = 0x2029 || c.val = 0x202f || c.val = 0x205f ||
  c.val = 0x3000 || c.val = 0xfeff

/-- JavaScript `s.trim()`: strip `jsWhitespace` from both ends. -/
def jsTrim (l : List Char) : List Char :=
  ((l.dropWhile jsWhitespace).reverse.dropWhile jsWhitespace).reverse

/-- `jsTrim` lifted to `String` (for `execSync(...).toString().trim()`). -/
def jsTrimS (s : String) : String :=
  String.mk (jsTrim s.data)

/-- Locate the first occurrence of the blank-line boundary `"\n\n"`:
`some (a, b)` means the text is `a ++ "\n\n" ++ b` with the exhibited
occurrence leftmost; `none` means no occurrence. -/
def firstSplitNN : List Char → Option (List Char × List Char)
  | [] => none
  | [_] => none
  | c :: d :: rest =>
    if c = '\n' ∧ d = '\n' then some ([], rest)
    else
      match firstSplitNN (d :: rest) with
      | some (a, b) => some (c :: a, b)
      | none => none

theorem firstSplitNN_length :
    ∀ (s a b : List Char), firstSplitNN s = some (a, b) → b.length < s.length
  | [], _, _, h => by simp [firstSplitNN] at h
  | [_], _, _, h => by simp [firstSplitNN] at h
  | c :: d :: rest, a, b, h => by
    by_cases hnl : c = '\n' ∧ d = '\n'
    · simp only [firstSplitNN, if_pos hnl, Option.some.injEq, Prod.mk.injEq] at h
      obtain ⟨rfl, rfl⟩ := h
      simp only [List.length_cons]
      omega
    · simp only [firstSplitNN, if_neg hnl] at h
      cases hrec : firstSplitNN (d :: rest) with
      | none => rw [hrec] at h; simp at h
      | some ab =>
        obtain ⟨a', b'⟩ := ab
        rw [hrec] at h
        simp only [Option.some.injEq, Prod.mk.injEq] at h
        obtain ⟨rfl, rfl⟩ := h
        have ih := firstSplitNN_length (d :: rest) a' b' hrec
        simp only [List.length_cons] at ih ⊢
        omega

/-- JavaScript `text.split("\n\n")`: repeatedly cut at the first blank-line
boundary.  Like the JavaScript original it never returns an empty list. -/
def splitNN (s : List Char) : List (List Char) :=
  match h : firstSplitNN s with
  | none => [s]
  | some (a, b) => a :: splitNN b
termination_by s.length
decreasing_by exact firstSplitNN_length s a b h

theorem splitNN_of_none {s : List Char} (h : firstSplitNN s = none) :
    splitNN s = [s] := by
  rw [splitNN.eq_def, h]

theorem splitNN_of_some {s a b : List Char} (h : firstSplitNN s = some (a, b)) :
    splitNN s = a :: splitNN b := by
  rw [splitNN.eq_def, h]

theorem splitNN_ne_nil (s : List Char) : splitNN s ≠ [] := by
  cases hfs : firstSplitNN s with
  | none => rw [splitNN_of_none hfs]; simp
  | some ab =>
    rw [splitNN_of_some (a := ab.1) (b := ab.2) (by rw [hfs])]
    simp

theorem firstSplitNN_eq_append :
    ∀ (s a b : List Char), firstSplitNN s = some (a, b) → s = a ++ NL2 ++ b
  | [], _, _, h => by simp [firstSplitNN] at h
  | [_], _, _, h => by simp [firstSplitNN] at h
  | c :: d :: rest, a, b, h => by
    by_cases hnl : c = '\n' ∧ d = '\n'
    · simp only [firstSplitNN, if_pos hnl, Option.some.injEq, Prod.mk.injEq] at h
      obtain ⟨rfl, rfl⟩ := h
      obtain ⟨rfl, rfl⟩ := hnl
      rfl
    · simp only [firstSplitNN, if_neg hnl] at h
      cases hrec : firstSplitNN (d :: rest) with
      | none => rw [hrec] at h; simp at h
      | some ab =>
        obtain ⟨a', b'⟩ := ab
        rw [hrec] at h
        simp only [Option.some.injEq, Prod.mk.injEq] at h
        obtain ⟨rfl, rfl⟩ := h
        have ih := firstSplitNN_eq_append (d :: rest) a' b' hrec
        simp only [List.cons_append, List.cons.injEq, true_and]
        exact ih

/-- `firstSplitNN` finds the leftmost occurrence: any other decomposition of
the text around `"\n\n"` has an occurrence no earlier. -/
theorem firstSplitNN_min :
    ∀ (s a b : List Char), firstSplitNN s = some (a, b) →
      ∀ a' b', s = a' ++ NL2 ++ b' → a.length ≤ a'.length
  | [], _, _, h => by simp [firstSplitNN] at h
  | [_], _, _, h => by simp [firstSplitNN] at h
  | c :: d :: rest, a, b, h => by
    by_cases hnl : c = '\n' ∧ d = '\n'
    · simp only [firstSplitNN, if_pos hnl, Option.some.injEq, Prod.mk.injEq] at h
      obtain ⟨rfl, rfl⟩ := h
      intro a' b' _
      simp
    · simp only [firstSplitNN, if_neg hnl] at h
      cases hrec : firstSplitNN (d :: rest) with
      | none => rw [hrec] at h; simp at h
      | some ab =>
        obtain ⟨a', b'⟩ := ab
        rw [hrec] at h
        simp only [Option.some.injEq, Prod.mk.injEq] at h
        obtain ⟨rfl, rfl⟩ := h
        intro a'' b'' heq
        cases a'' with
        | nil =>
          exfalso
          simp only [List.nil_append, NL2, List.cons_append, List.cons.injEq] at heq
          exact hnl ⟨heq.1, heq.2.1⟩
        | cons x xs =>
          simp only [List.cons_append, List.cons.injEq] at heq
          have ih := firstSplitNN_min (d :: rest) a' b' hrec xs b'' heq.2
          simp only [List.length_cons]
          omega

/-- When `firstSplitNN` reports no occurrence, the text really contains no
blank-line boundary. -/
theorem firstSplitNN_none :
    ∀ (s : List Char), firstSplitNN s = none → ∀ a b, s ≠ a ++ NL2 ++ b
  | [], _ => by
    intro a b heq
    have : ([] : List Char).length = (a ++ NL2 ++ b).length := by rw [heq]
    simp [NL2] at this
    omega
  | [c], _ => by
    intro a b heq
    have : [c].length = (a ++ NL2 ++ b).length := by rw [heq]
    simp [NL2] at this
    omega
  | c :: d :: rest, h => by
    simp only [firstSplitNN] at h
    by_cases hnl : c = '\n' ∧ d = '\n'
    · rw [if_pos hnl] at h
      simp at h
    · rw [if_neg hnl] at h
      intro a b heq
      cases a with
      | nil =>
        simp only [List.nil_append, NL2, List.cons_append, List.cons.injEq] at heq
        exact hnl ⟨heq.1, heq.2.1⟩
      | cons x xs =>
        simp only [List.cons_append, List.cons.injEq] at heq
        cases hrec : firstSplitNN (d :: rest) with
        | none => exact firstSplitNN_none (d :: rest) hrec xs b heq.2
        | some ab => rw [hrec] at h; exact absurd h (by simp)

theorem intercalate_singleton (sep x : List Char) :
    List.intercalate sep [x] = x := by
  simp [List.intercalate, List.intersperse]

theorem intercalate_cons_of_ne_nil (sep x : List Char) {ys : List (List Char)}
    (h : ys ≠ []) :
    List.intercalate sep (x :: ys) = x ++ sep ++ List.intercalate sep ys := by
  cases ys with
  | nil => exact absurd rfl h
  | cons y t => simp [List.intercalate, List.intersperse, List.append_assoc]

/-- `join("\n\n")` is a left inverse of `split("\n\n")`: rejoining all
segments reconstructs the original text. -/
theorem intercalate_splitNN (s : List Char) :
    List.intercalate NL2 (splitNN s) = s := by
  generalize hlen : s.length = n
  induction n using Nat.strong_induction_on generalizing s with
  | _ n ih =>
    cases hfs : firstSplitNN s with
    | none => rw [splitNN_of_none hfs, intercalate_singleton]
    | some ab =>
      obtain ⟨a, b⟩ := ab
      rw [splitNN_of_some hfs,
        intercalate_cons_of_ne_nil NL2 a (splitNN_ne_nil b),
        ih b.length (hlen ▸ firstSplitNN_length s a b hfs) b rfl]
      exact (firstSplitNN_eq_append s a b hfs).symm

/-- The response-text parsing step of `generatePRMessage`:

```
const [title, ...bodyParts] = responseText.split("\n\n")
return { title: title.trim(), body: bodyParts.join("\n\n").trim() }
```

The `[]` branch is unreachable (`splitNN` never returns `[]`). -/
def parsePRText (responseText : List Char) : List Char × List Char :=
  match splitNN responseText with
  | [] => ([], [])
  | title :: bodyParts =>
    (jsTrim title, jsTrim (List.intercalate NL2 bodyParts))

theorem parsePRText_of_some {s a b : List Char}
    (h : firstSplitNN s = some (a, b)) :
    parsePRText s = (jsTrim a, jsTrim b) := by
  rw [parsePRText, splitNN_of_some h]
  simp only [intercalate_splitNN]

theorem parsePRText_of_none {s : List Char} (h : firstSplitNN s = none) :
    parsePRText s = (jsTrim s, []) := by
  rw [parsePRText, splitNN_of_none h]
  simp [List.intercalate, List.intersperse, jsTrim]

/-- The segment of the response text before the first blank-line boundary
(the whole text when there is none); `title` is its trim. -/
def firstSegmentNN (s : List Char) : List Char :=
  match firstSplitNN s with
  | some (a, _) => a
  | none => s

theorem parsePRText_fst (s : List Char) :
    (parsePRText s).1 = jsTrim (firstSegmentNN s) := by
  cases h : firstSplitNN s with
  | none => rw [parsePRText_of_none h, firstSegmentNN, h]
  | some ab =>
    obtain ⟨a, b⟩ := ab
    rw [parsePRText_of_some h, firstSegmentNN, h]

theorem jsTrim_ne_nil {l : List Char}
    (h : ∃ c ∈ l, jsWhitespace c = false) : jsTrim l ≠ [] := by
  obtain ⟨c, hc, hpc⟩ := h
  have step : ∀ (m : List Char), c ∈ m →
      c ∈ m.dropWhile jsWhitespace ∧ m.dropWhile jsWhitespace ≠ [] := by
    intro m hm
    have hsplit := List.takeWhile_append_dropWhile (p := jsWhitespace) (l := m)
    have hmem : c ∈ m.takeWhile jsWhitespace ∨ c ∈ m.dropWhile jsWhitespace := by
      rw [← List.mem_append, hsplit]; exact hm
    have hcd : c ∈ m.dropWhile jsWhitespace := by
      rcases hmem with htk | hdp
      · exact absurd (List.mem_takeWhile_imp htk) (by simp [hpc])
      · exact hdp
    exact ⟨hcd, List.ne_nil_of_mem hcd⟩
  have h1 := step l hc
  have h2 := step (l.dropWhile jsWhitespace).reverse (List.mem_reverse.mpr h1.1)
  intro hnil
  exact h2.2 (by simpa [jsTrim, List.reverse_eq_nil_iff] using hnil)

/-- The LLM response's content blocks: the Anthropic API returns a list of
typed blocks; `generatePRMessage` only distinguishes whether
`message.content[0].type === "text"`. -/
inductive ContentBlock where
  /-- A block with `type === "text"` carrying its `text` field. -/
  | text (text : List Char)
  /-- Any block whose `type` is not `"text"` (e.g. `tool_use`). -/
  | other
deriving DecidableEq

/-- JavaScript truthiness of an environment variable: `undefined` and the
empty string are falsy. -/
def truthyStr : Option String → Bool
  | none => false
  | some s => !(s == "")

/-- Errors `generatePRMessage` can throw. -/
inductive GenError where
  /-- `"ANTHROPIC_API_KEY environment variable is not set"`. -/
  | missingApiKey
  /-- A transport/API error from the `messages.create` call, rethrown. -/
  | llmError
  /-- `TypeError` from `message.content[0].type` when `content` is empty. -/
  | emptyContent
deriving DecidableEq

/-- Result of `generatePRMessage`: whether the LLM network call was made,
and either the thrown error or the `{ title, body }` pair. -/
structure GenOutcome where
  networkCallMade : Bool
  result : Except GenError (List Char × List Char)

/-- Shallow embedding of `generatePRMessage`.

`apiKey` is `process.env.ANTHROPIC_API_KEY`; `llm` is the outcome of the
`anthropicClient.beta.promptCaching.messages.create` call — `.error` for a
transport/API failure, `.ok content` for a response carrying content
blocks.  The `git diff origin/main` text only feeds the prompt (it does not
influence control flow), so it is not a parameter.  Source:

```
const apiKey = process.env.ANTHROPIC_API_KEY
if (!apiKey) { throw new Error("ANTHROPIC_API_KEY ... is not set") }
...
const message = await anthropicClient...messages.create({...})
const responseText = message.content[0].type === "text" ? message.content[0].text : ""
const [title, ...bodyParts] = responseText.split("\n\n")
return { title: title.trim(), body: bodyParts.join("\n\n").trim() }
```
-/
def generatePRMessage (apiKey : Option String)
    (llm : Except Unit (List ContentBlock)) : GenOutcome :=
  if truthyStr apiKey = false then
    ⟨false, .error .missingApiKey⟩
  else
    match llm with
    | .error _ => ⟨true, .error .llmError⟩
    | .ok [] => ⟨true, .error .emptyContent⟩
    | .ok (block :: _) =>
      let responseText :=
        match block with
        | .text t => t
        | .other => []
      ⟨true, .ok (parsePRText responseText)⟩

/-- Environment variables consulted by `getCurrentBranch`. -/
structure BranchEnv where
  /-- `process.env.VERCEL` (the managed-deployment marker). -/
  vercel : Option String
  /-- `process.env.VERCEL_GIT_COMMIT_REF`. -/
  vercelGitCommitRef : Option String

/-- Errors `getCurrentBranch` can throw. -/
inductive BranchError where
  /-- `'Unable to determine branch name in Vercel environment'`. -/
  | vercelBranchMissing
  /-- `'Unable to determine branch name'` (the git command failed). -/
  | gitFailed
deriving DecidableEq

/-- Shallow embedding of `getCurrentBranch`.

`git` is the outcome of `execSync("git rev-parse --abbrev-ref HEAD")`
(raw stdout on success; the code applies `.toString().trim()`).  Source:

```
if (process.env.VERCEL) {
  const vercelBranch = process.env.VERCEL_GIT_COMMIT_REF;
  if (!vercelBranch) { throw new Error('Unable to determine branch name in Vercel environment'); }
  return vercelBranch;
}
try { return execSync("git rev-parse --abbrev-ref HEAD").toString().trim(); }
catch (error) { ... throw new Error('Unable to determine branch name'); }
```
-/
def getCurrentBranch (env : BranchEnv) (git : Except Unit String) :
    Except BranchError String :=
  if truthyStr env.vercel = true then
    match env.vercelGitCommitRef with
    | some b => if b == "" then .error .vercelBranchMissing else .ok b
    | none => .error .vercelBranchMissing
  else
    match git with
    | .ok out => .ok (jsTrimS out)
    | .error _ => .error .gitFailed

/-- The two GitHub tokens in the process environment. -/
structure TokenEnv where
  /-- `process.env.PAT_TOKEN` (default credential). -/
  patToken : Option String
  /-- `process.env.RAFFI_PAT_TOKEN` (alternate credential). -/
  raffiPatToken : Option String

/-- Token selection as written in `createPR` (line 102):
`currentBranch === "raffi" ? process.env.RAFFI_PAT_TOKEN : process.env.PAT_TOKEN`. -/
def selectTokenPR (currentBranch : String) (env : TokenEnv) : Option String :=
  if currentBranch == "raffi" then env.raffiPatToken else env.patToken

/-- Token selection as written in `createGitHubIssue` (line 223), the same
expression repeated verbatim. -/
def selectTokenIssue (currentBranch : String) (env : TokenEnv) : Option String :=
  if currentBranch == "raffi" then env.raffiPatToken else env.patToken

/-- The git commands `syncWithMain` can issue, in the forms they appear in
the source. -/
inductive GitCmd where
  /-- `git push origin ${currentBranch}`. -/
  | pushOrigin (branch : String)
  /-- `git fetch origin`. -/
  | fetchOrigin
  /-- `git rebase origin/main`. -/
  | rebaseOntoMain
  /-- `git push --force-with-lease`. -/
  | forcePushWithLease
  /-- `git rebase --abort`. -/
  | rebaseAbort
deriving DecidableEq

/-- Exit outcomes of the external git tool for the commands a single
`syncWithMain` run can issue (`true` = exit code 0). -/
structure GitOracle where
  pushOk : Bool
  fetchOk : Bool
  rebaseOk : Bool
  forcePushOk : Bool
  abortOk : Bool

/-- Errors `syncWithMain` can throw. -/
inductive SyncError where
  /-- `Please ensure your changes are committed and try again: ...`. -/
  | pushFailed
  /-- `Please manually rebase your branch on main and resolve conflicts
  before creating PR`. -/
  | conflictError
  /-- An `execSync` failure not wrapped by any catch, rethrown as-is
  (possible for `git fetch origin`, and for `git rebase --abort` inside the
  catch block). -/
  | cmdFailed (c : GitCmd)
deriving DecidableEq

/-- Shallow embedding of `syncWithMain`.

`branch` is the already-resolved result of `getCurrentBranch()` (modelled
separately); the oracle supplies each git command's exit outcome.  Returns
the trace of commands issued, in order, and the outcome.  The try block
spans both the rebase and the force-push; its catch issues
`git rebase --abort` and then throws the conflict error — if the abort
`execSync` itself fails, that failure propagates instead.  Source:

```
try { execSync(`git push origin ${currentBranch}`) }
catch (error) { ... throw new Error(`Please ensure your changes are committed and try again: ${error}`) }
execSync("git fetch origin")
try {
  execSync("git rebase origin/main")
  execSync("git push --force-with-lease")
} catch (error) {
  ...
  execSync("git rebase --abort")
  throw new Error("Please manually rebase your branch on main and resolve conflicts before creating PR")
}
```
-/
def syncWithMain (branch : String) (o : GitOracle) :
    List GitCmd × Except SyncError Unit :=
  if o.pushOk = false then
    ([.pushOrigin branch], .error .pushFailed)
  else if o.fetchOk = false then
    ([.pushOrigin branch, .fetchOrigin], .error (.cmdFailed .fetchOrigin))
  else if o.rebaseOk = false then
    ([.pushOrigin branch, .fetchOrigin, .rebaseOntoMain, .rebaseAbort],
      if o.abortOk then .error .conflictError
      else .error (.cmdFailed .rebaseAbort))
  else if o.forcePushOk = false then
    ([.pushOrigin branch, .fetchOrigin, .rebaseOntoMain, .forcePushWithLease,
        .rebaseAbort],
      if o.abortOk then .error .conflictError
      else .error (.cmdFailed .rebaseAbort))
  else
    ([.pushOrigin branch, .fetchOrigin, .rebaseOntoMain, .forcePushWithLease],
      .ok ())

/-- `PullRequestOptions` from the source. -/
structure PullRequestOptions where
  owner : String
  repo : String
  head : String
  base : String

/-- `GitHubIssueOptions` from the source (`labels` optional). -/
structure GitHubIssueOptions where
  owner : String
  repo : String
  title : String
  body : String
  labels : Option (List String)

/-- The `fetch` response as the code observes it: `response.ok`
(2xx status), the body read as text, and the `number` field of the JSON
body for successful responses. -/
structure HttpResponse where
  ok : Bool
  bodyText : String
  jsonNumber : Nat

/-- The authenticated POST request `createPR` sends: URL, `Authorization`
token, and JSON payload fields. -/
structure GhPRRequest where
  url : String
  token : Option String
  title : String
  body : String
  head : String
  base : String

/-- The authenticated POST request `createGitHubIssue` sends. -/
structure GhIssueRequest where
  url : String
  token : Option String
  title : String
  body : String
  labels : List String

/-- Errors the two GitHub-API functions can throw. -/
inductive ApiError where
  /-- `getCurrentBranch` threw before any request was sent. -/
  | branch (e : BranchError)
  /-- `Failed to create PR: ${errorText}` or
  `Failed to create issue: ${errorText}`. -/
  | api (msg : String)

/-- Shallow embedding of `createPR`.

Returns the request sent (if any) and the outcome (`.ok` carries the PR
`number` parsed from the response JSON).  Source:

```
const currentBranch = getCurrentBranch()
const token = currentBranch === "raffi" ? process.env.RAFFI_PAT_TOKEN : process.env.PAT_TOKEN
const response = await fetch(`https://api.github.com/repos/.../pulls`, { ... })
if (!response.ok) {
  const errorText = await response.text()
  throw new Error(`Failed to create PR: ${errorText}`)
}
const prData = await response.json()
return prData
```
-/
def createPR (env : BranchEnv) (tokens : TokenEnv) (git : Except Unit String)
    (opts : PullRequestOptions) (message : String × String)
    (resp : HttpResponse) : Option GhPRRequest × Except ApiError Nat :=
  match getCurrentBranch env git with
  | .error e => (none, .error (.branch e))
  | .ok currentBranch =>
    let token := selectTokenPR currentBranch tokens
    let req : GhPRRequest :=
      ⟨"https://api.github.com/repos/" ++ opts.owner ++ "/" ++ opts.repo ++
          "/pulls",
        token, message.1, message.2, opts.head, opts.base⟩
    if resp.ok then (some req, .ok resp.jsonNumber)
    else (some req, .error (.api ("Failed to create PR: " ++ resp.bodyText)))

/-- Shallow embedding of `createGitHubIssue`, structurally identical to
`createPR` but posting to `/issues` with `labels: options.labels || []` and
error prefix `Failed to create issue: `. -/
def createGitHubIssue (env : BranchEnv) (tokens : TokenEnv)
    (git : Except Unit String) (opts : GitHubIssueOptions)
    (resp : HttpResponse) : Option GhIssueRequest × Except ApiError Nat :=
  match getCurrentBranch env git with
  | .error e => (none, .error (.branch e))
  | .ok currentBranch =>
    let token := selectTokenIssue currentBranch tokens
    let req : GhIssueRequest :=
      ⟨"https://api.github.com/repos/" ++ opts.owner ++ "/" ++ opts.repo ++
          "/issues",
        token, opts.title, opts.body, opts.labels.getD []⟩
    if resp.ok then (some req, .ok resp.jsonNumber)
    else
      (some req, .error (.api ("Failed to create issue: " ++ resp.bodyText)))

/-- Replace the `head` field of a `PullRequestOptions`. -/
def setHead (opts : PullRequestOptions) (h : String) : PullRequestOptions :=
  ⟨opts.owner, opts.repo, h, opts.base⟩

/-- Claim C1: `generatePRMessage` splits the LLM response text on the first
blank-line (double-newline) boundary.  If the text decomposes as
`a ++ "\n\n" ++ b` at the leftmost boundary (`firstSplitNN`), the title is
`a` trimmed and the body is the remainder `b` — the later segments rejoined
on `"\n\n"` — trimmed; if the text contains no blank-line boundary, the
title is the whole text trimmed and the body is empty, and parsing is total
(no error). -/
theorem generatePRMessage_split_spec (s : List Char) :
    (∀ a b, firstSplitNN s = some (a, b) →
      s = a ++ NL2 ++ b ∧
      (∀ a' b', s = a' ++ NL2 ++ b' → a.length ≤ a'.length) ∧
      parsePRText s = (jsTrim a, jsTrim b)) ∧
    (firstSplitNN s = none →
      (∀ a b, s ≠ a ++ NL2 ++ b) ∧ parsePRText s = (jsTrim s, [])) := by
  refine ⟨fun a b h => ⟨firstSplitNN_eq_append s a b h,
    firstSplitNN_min s a b h, parsePRText_of_some h⟩,
    fun h => ⟨firstSplitNN_none s h, parsePRText_of_none h⟩⟩

/-- Witness for Claim C1 at the spec's scenario B response and at a
boundary-free response. -/
theorem generatePRMessage_split_spec_witness :
    parsePRText ("Add login flow\n\nThis PR adds OAuth login.".toList) =
      ("Add login flow".toList, "This PR adds OAuth login.".toList) ∧
    parsePRText ("Just a title".toList) = ("Just a title".toList, []) := by
  constructor
  · have h := ((generatePRMessage_split_spec
        ("Add login flow\n\nThis PR adds OAuth login.".toList)).1
        ("Add login flow".toList) ("This PR adds OAuth login.".toList)
        (by decide)).2.2
    rw [h]
    decide
  · have h := ((generatePRMessage_split_spec ("Just a title".toList)).2
        (by decide)).2
    rw [h]
    decide

/-- Claim C2: in a run that reaches the rebase step (push and fetch
succeeded) where `git rebase origin/main` fails and the abort of the
in-progress rebase succeeds, `syncWithMain` issues `git rebase --abort` as
the last command before the error is returned to the caller, raises the
conflict error, and never attempts the force-push-with-lease. -/
theorem syncWithMain_rebase_conflict (branch : String) (o : GitOracle)
    (hp : o.pushOk = true) (hf : o.fetchOk = true) (hr : o.rebaseOk = false)
    (ha : o.abortOk = true) :
    syncWithMain branch o =
      ([.pushOrigin branch, .fetchOrigin, .rebaseOntoMain, .rebaseAbort],
        .error .conflictError) ∧
    GitCmd.rebaseAbort ∈ (syncWithMain branch o).1 ∧
    GitCmd.forcePushWithLease ∉ (syncWithMain branch o).1 := by
  obtain ⟨p, f, r, fp, ab⟩ := o
  simp only at hp hf hr ha
  subst hp hf hr ha
  refine ⟨by simp [syncWithMain], by simp [syncWithMain], by simp [syncWithMain]⟩

/-- Witness for Claim C2: a concrete conflicting run. -/
theorem syncWithMain_rebase_conflict_witness :
    syncWithMain "feature-x" ⟨true, true, false, true, true⟩ =
      ([.pushOrigin "feature-x", .fetchOrigin, .rebaseOntoMain, .rebaseAbort],
        .error .conflictError) :=
  (syncWithMain_rebase_conflict "feature-x" ⟨true, true, false, true, true⟩
    rfl rfl rfl rfl).1

/-- Claim C3: when the initial `git push origin ${branch}` fails,
`syncWithMain` raises the sync error immediately: its trace consists of the
push alone, so neither `git fetch origin` nor `git rebase origin/main` was
attempted. -/
theorem syncWithMain_push_fail (branch : String) (o : GitOracle)
    (hp : o.pushOk = false) :
    syncWithMain branch o = ([.pushOrigin branch], .error .pushFailed) ∧
    GitCmd.fetchOrigin ∉ (syncWithMain branch o).1 ∧
    GitCmd.rebaseOntoMain ∉ (syncWithMain branch o).1 := by
  obtain ⟨p, f, r, fp, ab⟩ := o
  simp only at hp
  subst hp
  refine ⟨by simp [syncWithMain], by simp [syncWithMain], by simp [syncWithMain]⟩

/-- Witness for Claim C3: a concrete failing-push run. -/
theorem syncWithMain_push_fail_witness :
    syncWithMain "feature-x" ⟨false, true, true, true, true⟩ =
      ([.pushOrigin "feature-x"], .error .pushFailed) :=
  (syncWithMain_push_fail "feature-x" ⟨false, true, true, true, true⟩ rfl).1

/-- Claim C9: when the rebase succeeds but the force-push-with-lease fails
(and the abort command, issued although no rebase is in progress, returns
successfully), the catch block still issues `git rebase --abort` and raises
the same conflict error, so the outcome equals that of a run whose rebase
itself failed. -/
theorem syncWithMain_force_push_fail (branch : String) (o : GitOracle)
    (hp : o.pushOk = true) (hf : o.fetchOk = true) (hr : o.rebaseOk = true)
    (hfp : o.forcePushOk = false) (ha : o.abortOk = true) :
    syncWithMain branch o =
      ([.pushOrigin branch, .fetchOrigin, .rebaseOntoMain,
          .forcePushWithLease, .rebaseAbort], .error .conflictError) ∧
    GitCmd.rebaseAbort ∈ (syncWithMain branch o).1 ∧
    (syncWithMain branch o).2 =
      (syncWithMain branch ⟨true, true, false, true, true⟩).2 := by
  obtain ⟨p, f, r, fp, ab⟩ := o
  simp only at hp hf hr hfp ha
  subst hp hf hr hfp ha
  refine ⟨by simp [syncWithMain], by simp [syncWithMain], by simp [syncWithMain]⟩

/-- Witness for Claim C9: a concrete run whose force-push fails. -/
theorem syncWithMain_force_push_fail_witness :
    syncWithMain "feature-x" ⟨true, true, true, false, true⟩ =
      ([.pushOrigin "feature-x", .fetchOrigin, .rebaseOntoMain,
          .forcePushWithLease, .rebaseAbort], .error .conflictError) :=
  (syncWithMain_force_push_fail "feature-x" ⟨true, true, true, false, true⟩
    rfl rfl rfl rfl rfl).1

/-- Claim C6: authentication-token selection is a total function of the
resolved current branch name — it is defined for every branch string;
exactly the branch `"raffi"` selects the alternate credential
`RAFFI_PAT_TOKEN` and every other branch selects the default `PAT_TOKEN`;
and the selection expressions written in `createPR` and in
`createGitHubIssue` compute the same function. -/
theorem tokenSelection_spec (env : TokenEnv) :
    selectTokenPR "raffi" env = env.raffiPatToken ∧
    (∀ b : String, b ≠ "raffi" → selectTokenPR b env = env.patToken) ∧
    (∀ b : String, selectTokenPR b env = selectTokenIssue b env) := by
  refine ⟨by simp [selectTokenPR], fun b hb => ?_, fun b => rfl⟩
  rw [selectTokenPR, if_neg (by simp [hb])]

/-- Witness for Claim C6 at a concrete environment. -/
theorem tokenSelection_spec_witness :
    selectTokenPR "raffi" ⟨some "default-token", some "alt-token"⟩ =
      some "alt-token" ∧
    selectTokenPR "main" ⟨some "default-token", some "alt-token"⟩ =
      some "default-token" :=
  ⟨(tokenSelection_spec ⟨some "default-token", some "alt-token"⟩).1,
    (tokenSelection_spec ⟨some "default-token", some "alt-token"⟩).2.1 "main"
      (by decide)⟩

/-- Claim C7: when the managed-deployment marker `VERCEL` is set (truthy),
`getCurrentBranch` returns the environment-provided
`VERCEL_GIT_COMMIT_REF` value no matter what the git branch query would
say, and throws when that value is absent (unset or empty, both falsy in
the source's `if (!vercelBranch)` check); when the marker is absent, it
returns the git branch-query output (trimmed, as the source does) and
throws when the git command fails. -/
theorem getCurrentBranch_spec (env : BranchEnv) (git : Except Unit String) :
    (truthyStr env.vercel = true →
      (∀ git', getCurrentBranch env git = getCurrentBranch env git') ∧
      (∀ b, env.vercelGitCommitRef = some b → b ≠ "" →
        getCurrentBranch env git = .ok b) ∧
      (truthyStr env.vercelGitCommitRef = false →
        getCurrentBranch env git = .error .vercelBranchMissing)) ∧
    (truthyStr env.vercel = false →
      (∀ s, git = .ok s → getCurrentBranch env git = .ok (jsTrimS s)) ∧
      (∀ e, git = .error e → getCurrentBranch env git = .error .gitFailed)) := by
  constructor
  · intro hv
    refine ⟨fun git' => by simp [getCurrentBranch, hv], fun b hb hbne => ?_,
      fun habs => ?_⟩
    · rw [getCurrentBranch.eq_def, if_pos (by simp [hv]), hb]
      simp [hbne]
    · rw [getCurrentBranch.eq_def, if_pos (by simp [hv])]
      cases hc : env.vercelGitCommitRef with
      | none => simp
      | some b =>
        rw [hc] at habs
        simp only [truthyStr, Bool.not_eq_false'] at habs
        simp [habs]
  · intro hv
    refine ⟨fun s hs => ?_, fun e he => ?_⟩
    · rw [getCurrentBranch.eq_def, if_neg (by simp [hv]), hs]
    · rw [getCurrentBranch.eq_def, if_neg (by simp [hv]), he]

/-- Witness for Claim C7: inside Vercel the environment value wins over the
git result; outside, the trimmed git output is returned. -/
theorem getCurrentBranch_spec_witness :
    getCurrentBranch ⟨some "1", some "vercel-branch"⟩ (.ok "git-branch\n") =
      .ok "vercel-branch" ∧
    getCurrentBranch ⟨none, none⟩ (.ok "git-branch\n") = .ok "git-branch" := by
  constructor
  · exact ((getCurrentBranch_spec ⟨some "1", some "vercel-branch"⟩
      (.ok "git-branch\n")).1 (by decide)).2.1 "vercel-branch" rfl (by decide)
  · have h := ((getCurrentBranch_spec ⟨none, none⟩ (.ok "git-branch\n")).2
      (by decide)).1 "git-branch\n" rfl
    rw [h]
    exact congrArg Except.ok (by decide)

/-- Claim C4 counterexample: for the LLM response text
`"\n\nAdds login."` — a text block beginning with a blank-line boundary —
the summarizer returns a `GeneratedMessage` whose title is the empty
string, refuting the non-empty-title invariant. -/
theorem generatePRMessage_empty_title_cex :
    (generatePRMessage (some "key")
        (.ok [.text ("\n\nAdds login.".toList)])).result =
      .ok (([] : List Char), "Adds login.".toList) := by
  have h : parsePRText ("\n\nAdds login.".toList) =
      (jsTrim [], jsTrim ("Adds login.".toList)) :=
    parsePRText_of_some (by decide)
  show Except.ok (parsePRText ("\n\nAdds login.".toList)) = _
  rw [h]
  have h2 : (jsTrim [], jsTrim ("Adds login.".toList)) =
      (([] : List Char), "Adds login.".toList) := by decide
  rw [h2]

/-- Claim C4 (amended): the summarizer's title is the first blank-line
segment of the response, trimmed, hence non-empty whenever that segment
contains a non-whitespace character — but empty for responses that are
empty or begin with a blank line. -/
theorem generatePRMessage_title_nonempty (apiKey : Option String)
    (s : List Char) (rest : List ContentBlock)
    (hkey : truthyStr apiKey = true)
    (hs : ∃ c ∈ firstSegmentNN s, jsWhitespace c = false) :
    (generatePRMessage apiKey (.ok (.text s :: rest))).result =
      .ok (parsePRText s) ∧
    (parsePRText s).1 ≠ [] := by
  constructor
  · simp [generatePRMessage, hkey]
  · rw [parsePRText_fst]
    exact jsTrim_ne_nil hs

/-- Witness for the amended Claim C4 at a concrete response. -/
theorem generatePRMessage_title_nonempty_witness :
    (generatePRMessage (some "key")
        (.ok [.text ("Fix login bug\n\nDetails.".toList)])).result =
      .ok (parsePRText ("Fix login bug\n\nDetails.".toList)) ∧
    (parsePRText ("Fix login bug\n\nDetails.".toList)).1 ≠ [] :=
  generatePRMessage_title_nonempty (some "key")
    ("Fix login bug\n\nDetails.".toList) [] (by decide) (by decide)

/-- Claim C5 counterexample: with the credential set and an LLM response
whose first content block is not a text block, `generatePRMessage` does
not surface an error — it returns a `GeneratedMessage` with empty title
and empty body. -/
theorem generatePRMessage_nonText_cex :
    generatePRMessage (some "key") (.ok [.other]) =
      ⟨true, .ok (([] : List Char), ([] : List Char))⟩ := by
  have h : parsePRText ([] : List Char) = ([], []) := by
    rw [parsePRText_of_none (s := ([] : List Char)) rfl]
    rfl
  show (⟨true, .ok (parsePRText [])⟩ : GenOutcome) = _
  rw [h]

/-- Claim C5 (amended): a non-text first content block is treated as the
empty response text, yielding an empty `GeneratedMessage` with no error;
the credential half of the claim does hold — a falsy `ANTHROPIC_API_KEY`
raises the configuration error before the network call is made. -/
theorem generatePRMessage_nonText_and_key_guard :
    (∀ (apiKey : Option String) (rest : List ContentBlock),
      truthyStr apiKey = true →
      generatePRMessage apiKey (.ok (.other :: rest)) =
        ⟨true, .ok ([], [])⟩) ∧
    (∀ (apiKey : Option String) (llm : Except Unit (List ContentBlock)),
      truthyStr apiKey = false →
      generatePRMessage apiKey llm = ⟨false, .error .missingApiKey⟩) := by
  constructor
  · intro apiKey rest hkey
    have h : parsePRText ([] : List Char) = ([], []) := by
      rw [parsePRText_of_none (s := ([] : List Char)) rfl]
      rfl
    simp [generatePRMessage, hkey, h]
  · intro apiKey llm hkey
    simp [generatePRMessage, hkey]

/-- Witness for the amended Claim C5: a tool-use-only response yields the
empty message, and an unset key stops before the network call. -/
theorem generatePRMessage_nonText_and_key_guard_witness :
    generatePRMessage (some "key2") (.ok [.other, .other]) =
      ⟨true, .ok ([], [])⟩ ∧
    generatePRMessage none (.ok [.text ("T".toList)]) =
      ⟨false, .error .missingApiKey⟩ :=
  ⟨generatePRMessage_nonText_and_key_guard.1 (some "key2") [.other]
      (by decide),
    generatePRMessage_nonText_and_key_guard.2 none (.ok [.text ("T".toList)])
      (by decide)⟩

/-- Outside Vercel, a successful git query resolves to its trimmed output
(helper for concrete instantiations). -/
theorem getCurrentBranch_noVercel_ok (s b : String) (h : jsTrimS s = b) :
    getCurrentBranch ⟨none, none⟩ (.ok s) = .ok b := by
  rw [getCurrentBranch.eq_def, if_neg (by simp [truthyStr])]
  simp only [h]

/-- Claim C8: for every non-2xx response (in a run whose branch resolution
succeeded, so the request was sent), `createPR` and `createGitHubIssue`
throw an error whose message carries the response body text verbatim — the
body is a contiguous substring of the message — and no created resource is
returned. -/
theorem createPR_issue_error_body (env : BranchEnv) (tokens : TokenEnv)
    (git : Except Unit String) (b : String)
    (hb : getCurrentBranch env git = .ok b)
    (optsP : PullRequestOptions) (message : String × String)
    (optsI : GitHubIssueOptions) (resp : HttpResponse)
    (hok : resp.ok = false) :
    ((createPR env tokens git optsP message resp).2 =
        .error (.api ("Failed to create PR: " ++ resp.bodyText)) ∧
      (∃ pre suf, "Failed to create PR: " ++ resp.bodyText =
        pre ++ resp.bodyText ++ suf) ∧
      ∀ n, (createPR env tokens git optsP message resp).2 ≠ .ok n) ∧
    ((createGitHubIssue env tokens git optsI resp).2 =
        .error (.api ("Failed to create issue: " ++ resp.bodyText)) ∧
      (∃ pre suf, "Failed to create issue: " ++ resp.bodyText =
        pre ++ resp.bodyText ++ suf) ∧
      ∀ n, (createGitHubIssue env tokens git optsI resp).2 ≠ .ok n) := by
  refine ⟨⟨?_, ⟨"Failed to create PR: ", "", by simp⟩, ?_⟩,
    ⟨?_, ⟨"Failed to create issue: ", "", by simp⟩, ?_⟩⟩ <;>
    simp [createPR, createGitHubIssue, hb, hok]

/-- Witness for Claim C8 at a concrete failing response. -/
theorem createPR_issue_error_body_witness :
    (createPR ⟨none, none⟩ ⟨some "t", some "r"⟩ (.ok "main\n")
        ⟨"o", "rep", "main", "main"⟩ ("T", "B")
        ⟨false, "Validation Failed", 0⟩).2 =
      .error (.api ("Failed to create PR: " ++ "Validation Failed")) ∧
    (createGitHubIssue ⟨none, none⟩ ⟨some "t", some "r"⟩ (.ok "main\n")
        ⟨"o", "rep", "T", "B", none⟩ ⟨false, "Validation Failed", 0⟩).2 =
      .error (.api ("Failed to create issue: " ++ "Validation Failed")) :=
  ⟨(createPR_issue_error_body ⟨none, none⟩ ⟨some "t", some "r"⟩ (.ok "main\n")
      "main" (getCurrentBranch_noVercel_ok "main\n" "main" (by decide))
      ⟨"o", "rep", "main", "main"⟩ ("T", "B")
      ⟨"o", "rep", "T", "B", none⟩ ⟨false, "Validation Failed", 0⟩ rfl).1.1,
    (createPR_issue_error_body ⟨none, none⟩ ⟨some "t", some "r"⟩
      (.ok "main\n") "main" (getCurrentBranch_noVercel_ok "main\n" "main" (by decide))
      ⟨"o", "rep", "main", "main"⟩
      ("T", "B") ⟨"o", "rep", "T", "B", none⟩ ⟨false, "Validation Failed", 0⟩
      rfl).2.1⟩

/-- Claim C10: the token in the outgoing request is computed from the
branch freshly resolved by `getCurrentBranch` at call time and is
unaffected by the request's `head` field (the issue request has no head at
all): replacing `head` leaves the token unchanged, the token always equals
the selection for the resolved branch, and concretely a pull-request whose
`head` is `"raffi"` made while the resolved branch is `"main"` is
authenticated with the default token, not the alternate one. -/
theorem createPR_token_fresh (env : BranchEnv) (tokens : TokenEnv)
    (git : Except Unit String) (opts : PullRequestOptions)
    (message : String × String) (resp : HttpResponse) (h' : String) :
    ((createPR env tokens git opts message resp).1.map GhPRRequest.token =
      (createPR env tokens git (setHead opts h') message resp).1.map
        GhPRRequest.token) ∧
    (∀ b, getCurrentBranch env git = .ok b →
      (createPR env tokens git opts message resp).1.map GhPRRequest.token =
        some (selectTokenPR b tokens) ∧
      (∀ optsI : GitHubIssueOptions,
        (createGitHubIssue env tokens git optsI resp).1.map
          GhIssueRequest.token = some (selectTokenIssue b tokens))) ∧
    ((createPR ⟨none, none⟩ ⟨some "default", some "alt"⟩ (.ok "main")
        ⟨"o", "rep", "raffi", "main"⟩ ("T", "B") ⟨true, "", 1⟩).1.map
      GhPRRequest.token = some (some "default")) := by
  refine ⟨?_, fun b hb => ⟨?_, fun optsI => ?_⟩, by decide⟩
  · cases hgb : getCurrentBranch env git with
    | error e => simp [createPR, hgb]
    | ok br =>
      cases hro : resp.ok <;> simp [createPR, setHead, hgb, hro]
  · cases hro : resp.ok <;> simp [createPR, hb, hro]
  · cases hro : resp.ok <;> simp [createGitHubIssue, hb, hro]

/-- Witness for Claim C10: with the resolved branch `"main"`, changing the
request head to `"raffi"` leaves the token the default one. -/
theorem createPR_token_fresh_witness :
    ((createPR ⟨none, none⟩ ⟨some "default", some "alt"⟩ (.ok "main")
        ⟨"o", "rep", "main", "main"⟩ ("T", "B") ⟨true, "", 1⟩).1.map
      GhPRRequest.token =
      (createPR ⟨none, none⟩ ⟨some "default", some "alt"⟩ (.ok "main")
        (setHead ⟨"o", "rep", "main", "main"⟩ "raffi") ("T", "B")
        ⟨true, "", 1⟩).1.map GhPRRequest.token) ∧
    (createPR ⟨none, none⟩ ⟨some "default", some "alt"⟩ (.ok "main")
        ⟨"o", "rep", "main", "main"⟩ ("T", "B") ⟨true, "", 1⟩).1.map
      GhPRRequest.token = some (selectTokenPR "main" ⟨some "default", some "alt"⟩) :=
  ⟨(createPR_token_fresh ⟨none, none⟩ ⟨some "default", some "alt"⟩ (.ok "main")
      ⟨"o", "rep", "main", "main"⟩ ("T", "B") ⟨true, "", 1⟩ "raffi").1,
    ((createPR_token_fresh ⟨none, none⟩ ⟨some "default", some "alt"⟩
      (.ok "main") ⟨"o", "rep", "main", "main"⟩ ("T", "B") ⟨true, "", 1⟩
      "raffi").2.1 "main" (getCurrentBranch_noVercel_ok "main" "main" (by decide))).1⟩
